import Mathlib

/-!
Verification of the streaming-body / HTTP-connection core of the `dmeng`
library (a Rust HTTP/1.1 + HTTP/2 engine).  We shallowly embed the state
machines of `src/body.rs`, `src/http1/io.rs` and
`src/protocol/http2/control.rs` as pure Lean functions over explicit state
records, and prove (or refute) the specified properties about them.

Conventions of the embedding:
* Bytes are `Nat`; byte buffers are `List Nat`.
* `&mut self` methods become functions `State → ... → State × result`.
* `Poll<T>` becomes the inductive `PollR` below; `Ready(x)` carries `x`.
* The external compression crates (`flate2`, `brotli`) are modelled as
  abstract stream transducers supplied as a parameter (`Codecs`): the
  repository only ever calls `write_all` / "read everything currently
  available" / `finish` on them, which is exactly the interface captured.
* The tokio channel feeding a `Body` is modelled by a script of deliveries
  (`chanQueue`) stored in the state: `poll_recv` pops the next scripted
  event, returns `Ready(None)` when the script is exhausted and the channel
  closed, and `Pending` when exhausted but still open.
* The tokio semaphore (`PollSemaphore` + `OwnedSemaphorePermit`) is modelled
  by an available-permit counter plus a held-permit flag.  Note the tokio
  semantics of dropping an `OwnedSemaphorePermit`: the permit is RETURNED to
  the semaphore (`available_permits` increases); `forget()` would be needed
  to discard it.  `Body::check_over_limit` uses `self.permit.take()`, i.e. a
  plain drop, so the model adds the permit back there.
* `rate_limit` is `None` throughout: no claim under study installs a rate
  limiter, and the `if let Some(rate)` branches of `inner_poll_read` are
  skipped for a `None` limiter.
-/

/-- Model of `std::task::Poll`. -/
inductive PollR (α : Type) : Type
  | pending : PollR α
  | ready (a : α) : PollR α
deriving DecidableEq, Repr

/-- Compression-method constants.  `crate::Consts` is not part of the sources
under study; the values are modelled from the code's use sites:
`Body::get_now_compress` returns the literal `0` for "no transformation", so
`COMPRESS_METHOD_NONE = 0`, and the three recognized methods (spec §6:
`gzip`, `deflate`, `br`) are given the distinct codes 1, 2, 3.  Only
`methodNone = 0`, pairwise distinctness, and the existence of values outside
this set ("unknown methods") matter to any claim. -/
def methodNone : Int := 0

/-- Compression-method constant for gzip (see `methodNone`). -/
def methodGzip : Int := 1

/-- Compression-method constant for deflate (see `methodNone`). -/
def methodDeflate : Int := 2

/-- Compression-method constant for brotli (see `methodNone`). -/
def methodBrotli : Int := 3

/-- A read-flavoured decompressor (`flate2::read::GzDecoder` etc. wrapping a
`BinaryMut`): the code writes compressed bytes into it (`write_all`) and
drains whatever decompressed output is currently available
(`read_all_data`).  Abstract: `S` is the decoder state. -/
structure RTrans (S : Type) where
  init : S
  wr : S → List Nat → S
  readAll : S → S × List Nat

/-- A write-flavoured compressor (`flate2::write::GzEncoder` etc. over a
`BinaryMut`): `wr` models `write_all` followed by draining `get_mut()`
(returning the compressed bytes now available), `finish` models
`finish()` / `flush()+into_inner()` returning the trailing block. -/
structure WTrans (S : Type) where
  init : S
  wr : S → List Nat → S × List Nat
  finish : S → List Nat

/-- The six lazily-allocated codec slots of a `Body`
(`InnerCompress` / `InnerDecompress`), as abstract implementations. -/
structure Codecs (S : Type) where
  gzC : WTrans S
  deC : WTrans S
  brC : WTrans S
  gzD : RTrans S
  deD : RTrans S
  brD : RTrans S

/-- Identity transducers over a byte-buffer state: a decompressor whose
`readAll` hands back exactly the bytes written so far, and a compressor that
emits its input verbatim with an empty trailing block.  Used to instantiate
theorems at concrete inputs. -/
def idRTrans : RTrans (List Nat) :=
  { init := [], wr := fun s d => s ++ d, readAll := fun s => ([], s) }

/-- Identity compressor, see `idRTrans`. -/
def idWTrans : WTrans (List Nat) :=
  { init := [], wr := fun s d => (s, d), finish := fun _ => [] }

/-- All six codec slots instantiated with the identity transducers. -/
def idCodecs : Codecs (List Nat) :=
  { gzC := idWTrans, deC := idWTrans, brC := idWTrans,
    gzD := idRTrans, deD := idRTrans, brD := idRTrans }

/-- Trivial codecs over `Unit`, for bodies that never touch a codec. -/
def unitCodecs : Codecs Unit :=
  { gzC := { init := (), wr := fun s _ => (s, []), finish := fun _ => [] },
    deC := { init := (), wr := fun s _ => (s, []), finish := fun _ => [] },
    brC := { init := (), wr := fun s _ => (s, []), finish := fun _ => [] },
    gzD := { init := (), wr := fun s _ => s, readAll := fun s => (s, []) },
    deD := { init := (), wr := fun s _ => s, readAll := fun s => (s, []) },
    brD := { init := (), wr := fun s _ => s, readAll := fun s => (s, []) } }

/-- The streaming `Body` of `src/body.rs` (fields in source order; the
`InnerReceiver` channel variant is inlined as
`hasReceiver`/`chanQueue`/`chanClosed`; the file variant of `InnerReceiver`
is modelled separately below for `set_start_end`). -/
structure Body (S : Type) where
  hasReceiver : Bool
  chanQueue : List (Bool × List Nat)
  chanClosed : Bool
  semAvail : Nat
  permit : Bool
  originBuf : Option (List Nat)
  readBuf : Option (List Nat)
  cacheBodyData : List Nat
  originCompressMethod : Int
  nowCompressMethod : Int
  writeGz : Option S
  writeBr : Option S
  writeDe : Option S
  readerGz : Option S
  readerBr : Option S
  readerDe : Option S
  isChunked : Bool
  isEnd : Bool
  isProcessEnd : Bool
  maxReadBuf : Nat
deriving Repr

/-- Model of `impl Default for Body`: note `PollSemaphore::new(Arc::new(Semaphore::new(10)))`
— the semaphore starts with 10 available permits. -/
def Body.default (S : Type) : Body S :=
  { hasReceiver := false
    chanQueue := []
    chanClosed := false
    semAvail := 10
    permit := false
    originBuf := none
    readBuf := none
    cacheBodyData := []
    originCompressMethod := methodNone
    nowCompressMethod := methodNone
    writeGz := none
    writeBr := none
    writeDe := none
    readerGz := none
    readerBr := none
    readerDe := none
    isChunked := false
    isEnd := true
    isProcessEnd := false
    maxReadBuf := 10485760 }

/-- Model of `Body::new(receiver, binary, is_end)`: a channel-fed body with an initial
buffer.  `queue`/`closed` script the channel's future deliveries. -/
def Body.newChan (S : Type) (queue : List (Bool × List Nat)) (closed : Bool)
    (binary : List Nat) (isEnd : Bool) : Body S :=
  { Body.default S with
    hasReceiver := true
    chanQueue := queue
    chanClosed := closed
    originBuf := some binary
    isEnd := isEnd }

/-- Model of `Body::get_now_compress`: when origin and output methods coincide the
write side does no transformation (returns the literal 0). -/
def Body.getNowCompress (b : Body S) : Int :=
  if b.originCompressMethod = b.nowCompressMethod then 0 else b.nowCompressMethod

/-- Model of `Body::check_over_limit`: if the decoded read buffer has reached
`max_read_buf`, drop the held permit.  Dropping an `OwnedSemaphorePermit`
returns it to the semaphore (tokio semantics), hence `semAvail + 1`. -/
def Body.checkOverLimit (b : Body S) : Body S :=
  match b.readBuf with
  | some rb =>
      if b.maxReadBuf ≤ rb.length then
        if b.permit then { b with permit := false, semAvail := b.semAvail + 1 } else b
      else b
  | none => b

/-- Model of `Body::notify_some_read`: with no permit held, top the semaphore up to
one available permit if it has zero. -/
def Body.notifySomeRead (b : Body S) : Body S :=
  if b.permit then b
  else if b.semAvail = 0 then { b with semAvail := 1 } else b

/-- The `if self.read_buf.is_none() { self.read_buf = Some(BinaryMut::new()) }`
prelude shared by `cache_buffer` and `decode_read_data`. -/
def Body.ensureReadBuf (b : Body S) : Body S :=
  match b.readBuf with
  | none => { b with readBuf := some [] }
  | some _ => b

/-- Model of `read_buf.put_slice(data)` (after `ensureReadBuf`). -/
def Body.appendReadBuf (b : Body S) (data : List Nat) : Body S :=
  { b with readBuf := some (b.readBuf.getD [] ++ data) }

/-- Error raised by `decode_read_data` on an unrecognized origin compression
method (`io::Error::new(ErrorKind::Interrupted, ..)`), an io-kind error. -/
inductive DecodeErr : Type
  | unknownMethod : DecodeErr
deriving DecidableEq, Repr

/-- The epilogue of the decompressing branch of `decode_read_data`:
if `is_end`, clear the origin method; then `notify_some_read`. -/
def Body.finishDecode (b : Body S) (size : Nat) : Body S × Except DecodeErr Nat :=
  let b1 := if b.isEnd then { b with originCompressMethod := methodNone } else b
  (Body.notifySomeRead b1, .ok size)

/-- Model of `Body::decode_read_data` (src/body.rs:752-796).  Mirrors the source
arm-for-arm.  Note: the GZIP arm writes `data` into the decoder before
draining it (`gz.write_all(data)` + `read_all_data`), while the DEFLATE and
BROTLI arms only drain (`read_all_data`) and never write `data` anywhere —
the incoming bytes are discarded there. -/
def Body.decodeReadData (C : Codecs S) (b : Body S) (data : List Nat) :
    Body S × Except DecodeErr Nat :=
  let b := b.ensureReadBuf
  if b.originCompressMethod = methodNone then
    (b.appendReadBuf data, .ok data.length)
  else if b.originCompressMethod = b.nowCompressMethod then
    (b.appendReadBuf data, .ok 0)
  else if b.originCompressMethod = methodGzip then
    let s0 := b.readerGz.getD C.gzD.init
    let s1 := C.gzD.wr s0 data
    let p := C.gzD.readAll s1
    Body.finishDecode ({ b with readerGz := some p.1 }.appendReadBuf p.2) p.2.length
  else if b.originCompressMethod = methodDeflate then
    let s0 := b.readerDe.getD C.deD.init
    let p := C.deD.readAll s0
    Body.finishDecode ({ b with readerDe := some p.1 }.appendReadBuf p.2) p.2.length
  else if b.originCompressMethod = methodBrotli then
    let s0 := b.readerBr.getD C.brD.init
    let p := C.brD.readAll s0
    Body.finishDecode ({ b with readerBr := some p.1 }.appendReadBuf p.2) p.2.length
  else
    (b, .error .unknownMethod)

/-- Model of `Body::cache_buffer`: ensure the read buffer, then
`decode_read_data(buf).ok().unwrap_or(0)` — decode errors are swallowed and
reported as `0` bytes cached. -/
def Body.cacheBuffer (C : Codecs S) (b : Body S) (buf : List Nat) : Body S × Nat :=
  let b := b.ensureReadBuf
  match Body.decodeReadData C b buf with
  | (b1, .ok n) => (b1, n)
  | (b1, .error _) => (b1, 0)

/-- Result of one `InnerReceiver::poll_recv` on the channel variant
(`Receiver::poll_recv` semantics): next scripted delivery, or `None` when
the channel is closed and drained, or `Pending`.  With neither a receiver
nor a file the source falls through to `Poll::Ready(None)`. -/
inductive PRecv : Type
  | recvSome (isEnd : Bool) (bin : List Nat) : PRecv
  | recvNone : PRecv
  | recvPending : PRecv
deriving DecidableEq, Repr

/-- Model of `InnerReceiver::poll_recv` for a channel-or-empty receiver. -/
def Body.pollRecv (b : Body S) : Body S × PRecv :=
  if b.hasReceiver then
    match b.chanQueue with
    | x :: rest => ({ b with chanQueue := rest }, .recvSome x.1 x.2)
    | [] => if b.chanClosed then (b, .recvNone) else (b, .recvPending)
  else (b, .recvNone)

/-- Model of `Body::inner_poll_sem_ready`: already holding a permit is `Ready`;
otherwise `poll_acquire` takes an available permit or suspends. -/
def Body.innerPollSemReady (b : Body S) : Body S × PollR Unit :=
  if b.permit then (b, .ready ())
  else if b.semAvail = 0 then (b, .pending)
  else ({ b with semAvail := b.semAvail - 1, permit := true }, .ready ())

/-- The `loop` of `Body::inner_poll_read`: pull scripted channel deliveries
until the channel yields `Pending`, closes, or delivers `is_end`.  Each
delivered chunk goes through `cache_buffer`.  `fuel` is an iteration bound;
callers pass `chanQueue.length + 1`, which the loop can never exhaust since
every iteration that recurses consumed one scripted delivery. -/
def Body.pullLoop (C : Codecs S) : Nat → Body S → Bool → Body S × Bool
  | 0, b, hasChange => (b, hasChange)
  | Nat.succ fuel, b, hasChange =>
      match Body.pollRecv b with
      | (b1, .recvSome isEnd bin) =>
          let b2 := { b1 with isEnd := isEnd }
          let b3 := (Body.cacheBuffer C b2 bin).1
          if b3.isEnd then (b3, true) else Body.pullLoop C fuel b3 true
      | (b1, .recvNone) => ({ b1 with isEnd := true }, true)
      | (b1, .recvPending) => (b1, hasChange)

/-- Model of `Body::inner_poll_read` (src/body.rs:710-749): end short-circuits; the
semaphore gate; the pull loop; `check_over_limit` when anything changed. -/
def Body.innerPollRead (C : Codecs S) (b : Body S) : Body S × PollR Bool :=
  if b.isEnd then (b, .ready false)
  else
    match Body.innerPollSemReady b with
    | (b1, .pending) => (b1, .pending)
    | (b1, .ready _) =>
        let p := Body.pullLoop C (b1.chanQueue.length + 1) b1 false
        let b3 := if p.2 then p.1.checkOverLimit else p.1
        (b3, .ready p.2)

/-- Model of `webparse::Helper::encode_chunk_data` (external collaborator).  Modelled
from the spec (§6): RFC 7230 §4.1 chunk framing — ASCII hex length, CRLF,
the data, CRLF; the zero-length chunk is the terminator. -/
def encodeChunkData (data : List Nat) : List Nat :=
  (Nat.toDigits 16 data.length).map Char.toNat ++ [13, 10] ++ data ++ [13, 10]

/-- Model of `Body::inner_encode_write_data`: chunk-frame the bytes when chunked,
else append them verbatim. -/
def innerEncodeWriteData (buffer : List Nat) (data : List Nat) (isChunked : Bool) :
    List Nat :=
  if isChunked then buffer ++ encodeChunkData data else buffer ++ data

/-- Helper for `encode_write_data`: append to `cache_body_data`. -/
def Body.pushCache (b : Body S) (data : List Nat) : Body S :=
  { b with cacheBodyData := innerEncodeWriteData b.cacheBodyData data b.isChunked }

/-- One compressing arm of `encode_write_data` for write-codec slot `sl`
(a lens onto `write_gz`/`write_de`/`write_br`): empty input finalizes the
lazily-opened compressor and emits its trailing block (plus a zero-length
chunk trailer when chunked); nonempty input is written through, and any
bytes the compressor makes available are moved to `cache_body_data`. -/
def Body.encodeArm (t : WTrans S) (get : Body S → Option S)
    (set : Body S → Option S → Body S) (b : Body S) (data : List Nat) : Body S :=
  if data = [] then
    let s := (get b).getD t.init
    let value := t.finish s
    let b1 := set b none
    let b2 := if value = [] then b1 else b1.pushCache value
    if b2.isChunked then { b2 with cacheBodyData := b2.cacheBodyData ++ encodeChunkData [] }
    else b2
  else
    let s := (get b).getD t.init
    let p := t.wr s data
    let b1 := set b (some p.1)
    if p.2 = [] then b1 else b1.pushCache p.2

/-- Model of `Body::encode_write_data` (src/body.rs:568-681), dispatching on
`get_now_compress`; unrecognized (and `0`) methods append verbatim
(chunk-framed when chunked). -/
def Body.encodeWriteData (C : Codecs S) (b : Body S) (data : List Nat) : Body S :=
  let m := b.getNowCompress
  if m = methodGzip then
    Body.encodeArm C.gzC (fun x => x.writeGz) (fun x v => { x with writeGz := v }) b data
  else if m = methodDeflate then
    Body.encodeArm C.deC (fun x => x.writeDe) (fun x v => { x with writeDe := v }) b data
  else if m = methodBrotli then
    Body.encodeArm C.brC (fun x => x.writeBr) (fun x v => { x with writeBr := v }) b data
  else
    b.pushCache data

/-- Model of `Body::process_data` (src/body.rs:798-824).  `cx = none` mirrors
`process_data(None)`: the channel pull is skipped.  Errors from decoding the
initial `origin_buf` propagate (`?`); the final steps drain `read_buf`
through the encode stage, finalize on `is_end`, and set `is_process_end`. -/
def Body.processData (C : Codecs S) (b : Body S) (cx : Option Unit) :
    Body S × PollR (Except DecodeErr Nat) :=
  if b.isProcessEnd then (b, .ready (.ok 0))
  else
    let step1 : Body S × Option DecodeErr :=
      match b.originBuf with
      | some origin =>
          match Body.decodeReadData C { b with originBuf := none } origin with
          | (b2, .error e) => (b2, some e)
          | (b2, .ok _) => (b2, none)
      | none => (b, none)
    match step1 with
    | (b1, some e) => (b1, .ready (.error e))
    | (b1, none) =>
        let step2 : Body S × Option (PollR Unit) :=
          match cx with
          | some _ =>
              match Body.innerPollRead C b1 with
              | (b2, .pending) => (b2, some .pending)
              | (b2, .ready _) => (b2, none)
          | none => (b1, none)
        match step2 with
        | (b2, some _) => (b2, .pending)
        | (b2, none) =>
            let b3 :=
              match b2.readBuf with
              | some bin =>
                  let bE := if bin = [] then b2 else Body.encodeWriteData C b2 bin
                  Body.notifySomeRead { bE with readBuf := some [] }
              | none => b2
            let b4 := if b3.isEnd then Body.encodeWriteData C b3 [] else b3
            ({ b4 with isProcessEnd := b4.isEnd }, .ready (.ok 0))

/-- Model of `Body::read_data` (src/body.rs:826-837): one `process_data(None)` step
(its `Pending` is discarded by `let _ = ...?`, its error propagates), then
drain all of `cache_body_data`; returns the byte count and, in this model,
also the drained bytes themselves. -/
def Body.readData (C : Codecs S) (b : Body S) : Body S × Except DecodeErr (Nat × List Nat) :=
  match Body.processData C b none with
  | (b1, .ready (.error e)) => (b1, .error e)
  | (b1, _) =>
      ({ b1 with cacheBodyData := [] }, .ok (b1.cacheBodyData.length, b1.cacheBodyData))

/-- Model of `<Body as AsyncRead>::poll_read` (src/body.rs:840-853): drive
`process_data(Some(cx))`, then copy at most `bufRemaining` bytes out of
`cache_body_data` into the caller's buffer (returned as the `ready` value). -/
def Body.pollRead (C : Codecs S) (b : Body S) (bufRemaining : Nat) :
    Body S × PollR (Except DecodeErr (List Nat)) :=
  match Body.processData C b (some ()) with
  | (b1, .pending) => (b1, .pending)
  | (b1, .ready (.error e)) => (b1, .ready (.error e))
  | (b1, .ready (.ok _)) =>
      let len := min b1.cacheBodyData.length bufRemaining
      ({ b1 with cacheBodyData := b1.cacheBodyData.drop len },
       .ready (.ok (b1.cacheBodyData.take len)))

/-- Model of `Body::poll_encode_write` (src/body.rs:683-691): `process_data(Some(cx))`
then `read_data` into the caller's buffer; the `ready` value carries the
byte count and the appended bytes. -/
def Body.pollEncodeWrite (C : Codecs S) (b : Body S) :
    Body S × PollR (Except DecodeErr (Nat × List Nat)) :=
  match Body.processData C b (some ()) with
  | (b1, .pending) => (b1, .pending)
  | (b1, .ready (.error e)) => (b1, .ready (.error e))
  | (b1, .ready (.ok _)) =>
      match Body.readData C b1 with
      | (b2, .error e) => (b2, .ready (.error e))
      | (b2, .ok r) => (b2, .ready (.ok r))

/-- An open file as seen by `InnerReceiver`: its contents and the current
cursor position (`seek(SeekFrom::Start(p))` sets `pos := p`). -/
structure FileM where
  content : List Nat
  pos : Nat
deriving DecidableEq, Repr

/-- The `InnerReceiver` of `src/body.rs` for the file variant
(`receiver = None`), carrying the range fields used by `set_start_end`. -/
structure InnerReceiverM where
  file : Option FileM
  dataSize : Nat
  startPos : Option Nat
  endPos : Option Nat
deriving DecidableEq, Repr

/-- Model of `InnerReceiver::new_file(file, data_size)`. -/
def InnerReceiverM.newFile (content : List Nat) (dataSize : Nat) : InnerReceiverM :=
  { file := some { content := content, pos := 0 }, dataSize := dataSize,
    startPos := none, endPos := none }

/-- Outcome of `InnerReceiver::set_start_end`: the source can terminate in
three distinct ways — the `assert!(end_pos >= start_pos, ..)` aborts the
process (`panicked`), the `seek(..).await?` can return `Err` (`failedErr`),
or the call succeeds (`ok`). -/
inductive SSERes : Type
  | panicked : SSERes
  | failedErr : SSERes
  | ok (r : InnerReceiverM) : SSERes
deriving DecidableEq, Repr

/-- Model of `InnerReceiver::set_start_end` (src/body.rs:110-119), also reached via
the delegating `Body::set_start_end` (src/body.rs:387-389): assert
`end_pos >= start_pos` (a panic, not an `Err`, on violation), record the
range, set `data_size := end_pos - start_pos`, and seek the file (if any) to
`start_pos`.  Seeking an open file to an absolute offset succeeds, so
`failedErr` is never produced by the model. -/
def InnerReceiverM.setStartEnd (r : InnerReceiverM) (startPos endPos : Nat) : SSERes :=
  if endPos < startPos then .panicked
  else
    let r1 := { r with startPos := some startPos, endPos := some endPos,
                       dataSize := endPos - startPos }
    match r1.file with
    | some f => .ok { r1 with file := some { f with pos := startPos } }
    | none => .ok r1

/-- The file branch of `InnerReceiver::recv` / `poll_recv`
(src/body.rs:130-146, 153-177): read up to 4096 bytes at the cursor;
`is_end` when the read came back short or `data_size` is exhausted by it;
deliver `min(data_size, size)` bytes and decrease `data_size` by that. -/
def InnerReceiverM.recvFile (r : InnerReceiverM) : Option ((Bool × List Nat) × InnerReceiverM) :=
  match r.file with
  | none => none
  | some f =>
      let avail := f.content.drop f.pos
      let size := min 4096 avail.length
      let isEnd := size < 4096 ∨ r.dataSize ≤ size
      let rd := min r.dataSize size
      some ((isEnd, avail.take rd),
            { r with file := some { f with pos := f.pos + size },
                     dataSize := r.dataSize - rd })

/-- The 24-byte HTTP/2 connection preface
`PRI * HTTP/2.0\r\n\r\nSM\r\n\r\n` (`webparse::http2::HTTP2_MAGIC`). -/
def http2Magic : List Nat :=
  [80, 82, 73, 32, 42, 32, 72, 84, 84, 80, 47, 50, 46, 48, 13, 10, 13, 10,
   83, 77, 13, 10, 13, 10]

/-- Model of `webparse::http2::MAIGC_LEN` (sic): length of the preface. -/
def magicLen : Nat := 24

/-- Outcome of the external `webparse` `Request::parse_buffer` call inside
`IoBuffer::poll_request` (the parser is an external collaborator, so its
verdict is an input of the model): an incomplete buffer (`e.is_partial()`),
a fatal parse error, or a successful parse consuming `size` bytes. -/
inductive ParseOutcome : Type
  | incomplete : ParseOutcome
  | fatal : ParseOutcome
  | parsed (size : Nat) : ParseOutcome
deriving DecidableEq, Repr

/-- Result of the header-parsing phase of `IoBuffer::poll_request`. -/
inductive PollReqRes : Type
  | pend : PollReqRes
  | upgradeHttp2 (payload : List Nat) : PollReqRes
  | parseErr : PollReqRes
  | okParsed (size : Nat) : PollReqRes
deriving DecidableEq, Repr

/-- The header-parsing phase of `IoBuffer::poll_request`
(src/http1/io.rs:310-331), taking the current read buffer and the parser's
verdict.  On a fatal parse error with the buffer starting with the HTTP/2
preface, the source returns `ProtError::ServerUpgradeHttp2(Binary::new(), None)`
— the payload is a freshly constructed EMPTY binary, and the
`read_buf.advance(MAIGC_LEN)` above it is commented out, so the buffer is
returned untouched. -/
def pollRequestParseStep (readBuf : List Nat) (oc : ParseOutcome) :
    PollReqRes × List Nat :=
  match oc with
  | .incomplete => (.pend, readBuf)
  | .fatal =>
      if magicLen ≤ readBuf.length ∧ readBuf.take magicLen = http2Magic then
        (.upgradeHttp2 [], readBuf)
      else (.parseErr, readBuf)
  | .parsed n => (.okParsed n, readBuf)

/-- The per-direction `SendStatus` record of `src/http1/io.rs`. -/
structure SendStatus where
  isSendBody : Bool
  isSendHeader : Bool
  isSendFinish : Bool
  isReadHeaderEnd : Bool
  isReadFinish : Bool
  isChunked : Bool
  leftReadBodyLen : Nat
deriving DecidableEq, Repr

/-- Model of `SendStatus::default()`: all flags false, length 0. -/
def SendStatus.default : SendStatus :=
  { isSendBody := false, isSendHeader := false, isSendFinish := false,
    isReadHeaderEnd := false, isReadFinish := false, isChunked := false,
    leftReadBodyLen := 0 }

/-- Model of `SendStatus::clear_write`. -/
def SendStatus.clearWrite (st : SendStatus) : SendStatus :=
  { st with isSendBody := false, isSendHeader := false, isSendFinish := false }

/-- Model of `SendStatus::clear_read`. -/
def SendStatus.clearRead (st : SendStatus) : SendStatus :=
  { st with isReadFinish := false, isReadHeaderEnd := false,
            leftReadBodyLen := 0, isChunked := false }

/-- Model of `SendStatus::clear`. -/
def SendStatus.clear (st : SendStatus) : SendStatus :=
  st.clearRead.clearWrite

/-- An outbound HTTP/1 message (`RecvResponse` / `RecvRequest`) as
`poll_write` sees it: the bytes its webparse `encode_header` emits, the
`headers().is_chunked()` verdict, and its streaming `Body`. -/
structure MsgM (S : Type) where
  headerBytes : List Nat
  isChunkedHdr : Bool
  body : Body S

/-- The `IoBuffer`/`ConnectionInfo` state of `src/http1/io.rs` used by the
write path (`ready_time` is a wall-clock `Instant` and is not modelled). -/
structure IoState (S : Type) where
  resList : List (MsgM S)
  reqList : List (MsgM S)
  resStatus : SendStatus
  reqStatus : SendStatus
  writeBuf : List Nat
  dealReq : Nat
  isKeepAlive : Bool
  isIdle : Bool

/-- Model of `IoBuffer::set_now_end` (minus the `ready_time` reset). -/
def IoState.setNowEnd (s : IoState S) : IoState S :=
  { s with reqStatus := s.reqStatus.clear, resStatus := s.resStatus.clear,
           isIdle := true }

/-- Model of `IoBuffer::check_finish_status`. -/
def IoState.checkFinishStatus (s : IoState S) : IoState S :=
  if (s.reqList.isEmpty || s.reqStatus.isSendFinish) &&
     (s.resList.isEmpty || s.resStatus.isSendFinish) then s.setNowEnd else s

/-- The response block of `IoBuffer::poll_write` (src/http1/io.rs:176-193):
with a response at the front of `res_list`, encode its header once
(recording `is_chunked`), drive its body's `poll_encode_write` into
`write_buf` (result discarded by `let _`), and mark `is_send_finish` when
the body reports end. -/
def IoState.fillResFront (C : Codecs S) (s : IoState S) : IoState S :=
  match s.resList with
  | [] => s
  | res :: rest =>
      let st := s.resStatus
      let p1 : SendStatus × MsgM S × List Nat :=
        if st.isSendHeader then (st, res, s.writeBuf)
        else ({ st with isChunked := res.isChunkedHdr, isSendHeader := true },
              res, s.writeBuf ++ res.headerBytes)
      let p2 : SendStatus × MsgM S × List Nat :=
        let st1 := p1.1
        let res1 := p1.2.1
        let wb1 := p1.2.2
        if res1.body.isEnd = false ∨ st1.isSendBody = false then
          let q := Body.pollEncodeWrite C res1.body
          let out := match q.2 with
            | .ready (.ok r) => r.2
            | _ => []
          ({ st1 with isSendBody := true }, { res1 with body := q.1 }, wb1 ++ out)
        else (st1, res1, wb1)
      let st2 := p2.1
      let res2 := p2.2.1
      let wb2 := p2.2.2
      let p3 : SendStatus × Nat :=
        if res2.body.isEnd then ({ st2 with isSendFinish := true }, s.dealReq + 1)
        else (st2, s.dealReq)
      { s with resList := res2 :: rest, resStatus := p3.1, writeBuf := wb2,
               dealReq := p3.2 }

/-- Lines 194-199 of `poll_write`: when `res_status.is_send_finish`, pop the
front response, clear the write flags, and run `check_finish_status`. -/
def IoState.popResIfFinish (s : IoState S) : IoState S :=
  if s.resStatus.isSendFinish then
    IoState.checkFinishStatus
      { s with resList := s.resList.drop 1, resStatus := s.resStatus.clearWrite }
  else s

/-- The request block of `poll_write` (src/http1/io.rs:201-215); identical to
the response block except that no `is_chunked` is recorded. -/
def IoState.fillReqFront (C : Codecs S) (s : IoState S) : IoState S :=
  match s.reqList with
  | [] => s
  | req :: rest =>
      let st := s.reqStatus
      let p1 : SendStatus × MsgM S × List Nat :=
        if st.isSendHeader then (st, req, s.writeBuf)
        else ({ st with isSendHeader := true }, req, s.writeBuf ++ req.headerBytes)
      let p2 : SendStatus × MsgM S × List Nat :=
        let st1 := p1.1
        let req1 := p1.2.1
        let wb1 := p1.2.2
        if req1.body.isEnd = false ∨ st1.isSendBody = false then
          let q := Body.pollEncodeWrite C req1.body
          let out := match q.2 with
            | .ready (.ok r) => r.2
            | _ => []
          ({ st1 with isSendBody := true }, { req1 with body := q.1 }, wb1 ++ out)
        else (st1, req1, wb1)
      let st2 := p2.1
      let req2 := p2.2.1
      let wb2 := p2.2.2
      let p3 : SendStatus × Nat :=
        if req2.body.isEnd then ({ st2 with isSendFinish := true }, s.dealReq + 1)
        else (st2, s.dealReq)
      { s with reqList := req2 :: rest, reqStatus := p3.1, writeBuf := wb2,
               dealReq := p3.2 }

/-- Lines 216-221 of `poll_write`: the request-side pop. -/
def IoState.popReqIfFinish (s : IoState S) : IoState S :=
  if s.reqStatus.isSendFinish then
    IoState.checkFinishStatus
      { s with reqList := s.reqList.drop 1, reqStatus := s.reqStatus.clearWrite }
  else s

/-- The buffer-filling part of `IoBuffer::poll_write`
(src/http1/io.rs:175-221), before the socket write at lines 223-235:
response block, response pop, request block, request pop, in source order. -/
def IoState.pollWriteFill (C : Codecs S) (s : IoState S) : IoState S :=
  IoState.popReqIfFinish (IoState.fillReqFront C
    (IoState.popResIfFinish (IoState.fillResFront C s)))

/-- Model of `IoBuffer::send_response` (src/http1/io.rs:531-536): run
`check_finish_status`, then push the response at the BACK of the FIFO
`res_list`. -/
def IoState.sendResponse (s : IoState S) (res : MsgM S) : IoState S :=
  let s1 := s.checkFinishStatus
  { s1 with resList := s1.resList ++ [res], isIdle := false }

/-- An HTTP/2 frame as `Control` dispatches it (`webparse` frame kinds;
only the fields the dispatch inspects are carried). -/
inductive FrameM : Type
  | settings : FrameM
  | dataF (sid : Nat) (endStream : Bool) (payload : List Nat) : FrameM
  | headersF (sid : Nat) (endHeaders : Bool) (endStream : Bool) : FrameM
  | priorityF (sid : Nat) : FrameM
  | pushPromiseF (sid : Nat) : FrameM
  | pingF : FrameM
  | goAwayF (reason : Nat) : FrameM
  | windowUpdateF (sid : Nat) (increment : Nat) : FrameM
  | resetF (sid : Nat) : FrameM
deriving DecidableEq, Repr

/-- Model of `Frame::stream_id`: connection-level frames (SETTINGS, PING, GOAWAY)
carry stream id 0. -/
def FrameM.streamId : FrameM → Nat
  | .settings => 0
  | .dataF sid _ _ => sid
  | .headersF sid _ _ => sid
  | .priorityF sid => sid
  | .pushPromiseF sid => sid
  | .pingF => 0
  | .goAwayF _ => 0
  | .windowUpdateF sid _ => sid
  | .resetF sid => sid

/-- Model of `Frame::is_end_headers`: only a HEADERS frame can carry END_HEADERS. -/
def FrameM.isEndHeaders : FrameM → Bool
  | .headersF _ eh _ => eh
  | _ => false

/-- Model of `Frame::is_end_stream`. -/
def FrameM.isEndStream : FrameM → Bool
  | .dataF _ es _ => es
  | .headersF _ _ es => es
  | _ => false

/-- Modelled from the spec: `InnerStream` (its source file is not among the
sources under study) accumulates the frames of one stream;
`InnerStream::new(frame)` starts from the first frame, and `push(frame)`
validates frame-kind ordering — HEADERS first, then DATA (spec §4.5; a DATA
frame before any HEADERS is the spec §7 example of a sequencing violation,
yielding a protocol error). -/
def innerStreamPush (fs : List FrameM) (f : FrameM) : Except Unit (List FrameM) :=
  match f with
  | .dataF _ _ _ =>
      if fs.any (fun g => match g with | .headersF _ _ _ => true | _ => false)
      then .ok (fs ++ [f]) else .error ()
  | _ => .ok (fs ++ [f])

/-- Keys of an association list. -/
def alistKeys (m : List (Nat × α)) : List Nat := m.map (fun p => p.1)

/-- Model of `HashMap::contains_key`. -/
def alistContains (m : List (Nat × α)) (k : Nat) : Bool := m.any (fun p => p.1 = k)

/-- Model of `HashMap::insert` of a fresh key (the caller checked absence). -/
def alistInsert (m : List (Nat × α)) (k : Nat) (v : α) : List (Nat × α) :=
  m ++ [(k, v)]

/-- Model of `HashMap::get`. -/
def alistGet (m : List (Nat × α)) (k : Nat) : Option α :=
  (m.find? (fun p => p.1 = k)).map (fun p => p.2)

/-- Replace the value at key `k`. -/
def alistSet (m : List (Nat × α)) (k : Nat) (v : α) : List (Nat × α) :=
  m.map (fun p => if p.1 = k then (p.1, v) else p)

/-- The `Control` state of `src/protocol/http2/control.rs` restricted to the
fields its frame dispatch touches.  `send_frames` is a `PriorityQueue` whose
source is not among the sources under study; modelled from the spec
(§3/§4.6) as per-stream send windows plus a connection window, initialized
from the peer's `initial_window_size`. -/
structure ControlM where
  recvFrames : List (Nat × List FrameM)
  readyQueue : List Nat
  lastStreamId : Nat
  sendWindows : List (Nat × Int)
  connSendWindow : Int
  goAwayErr : Option Nat
deriving DecidableEq, Repr

/-- Model of `Control::recv_frame` (src/protocol/http2/control.rs:342-365): frames on
stream 0 are ignored (`Ready(None)`, no state change); otherwise the frame
is inserted as a new `InnerStream` or pushed onto the existing one (a push
error propagating via `?` before anything else changes), `last_stream_id`
is raised to the max with this stream id, and on END_HEADERS the stream id
joins `ready_queue`. -/
def ControlM.recvFrame (c : ControlM) (f : FrameM) :
    ControlM × PollR (Option (Except Unit Bool)) :=
  let sid := f.streamId
  if sid = 0 then (c, .ready none)
  else
    let eh := f.isEndHeaders
    let step : Except Unit ControlM :=
      if alistContains c.recvFrames sid then
        match alistGet c.recvFrames sid with
        | some fs =>
            match innerStreamPush fs f with
            | .error e => .error e
            | .ok fs1 => .ok { c with recvFrames := alistSet c.recvFrames sid fs1 }
        | none => .ok c
      else
        .ok { c with recvFrames := alistInsert c.recvFrames sid [f] }
    match step with
    | .error e => (c, .ready (some (.error e)))
    | .ok c1 =>
        let c2 := { c1 with lastStreamId := max c1.lastStreamId sid }
        if eh then
          ({ c2 with readyQueue := c2.readyQueue ++ [sid] }, .ready (some (.ok true)))
        else (c2, .ready none)

/-- The frame-dispatch `match` of `Control::poll_request` / `poll_response`
(src/protocol/http2/control.rs:172-197 and 237-264) on the `ControlM`
fields: DATA and HEADERS run `recv_frame`; GOAWAY stores the error;
WINDOW_UPDATE does NOTHING — the body of its arm is empty, the crediting of
`initial_window_size` being commented out in the source; PUSH_PROMISE and
RST_STREAM arms are empty; SETTINGS, PRIORITY and PING delegate to
sub-state machines (`StateSettings`, `PriorityQueue`, `StatePingPong`)
that hold none of the state modelled here. -/
def ControlM.dispatch (c : ControlM) (f : FrameM) : ControlM :=
  match f with
  | .settings => c
  | .dataF _ _ _ => (c.recvFrame f).1
  | .headersF _ _ _ => (c.recvFrame f).1
  | .priorityF _ => c
  | .pushPromiseF _ => c
  | .pingF => c
  | .goAwayF r => { c with goAwayErr := some r }
  | .windowUpdateF _ _ => c
  | .resetF _ => c

/-- Per-stream send window lookup (spec §4.6: absent streams start from the
peer's `initial_window_size`, the second argument). -/
def ControlM.sendWindowOf (c : ControlM) (initialWindow : Int) (sid : Nat) : Int :=
  (alistGet c.sendWindows sid).getD initialWindow

/-- Keys after inserting a fresh binding. -/
theorem alistKeys_insert (m : List (Nat × α)) (k : Nat) (v : α) :
    alistKeys (alistInsert m k v) = alistKeys m ++ [k] := by
  simp [alistKeys, alistInsert]

/-- Updating a value in place leaves the key list unchanged. -/
theorem alistKeys_set (m : List (Nat × α)) (k : Nat) (v : α) :
    alistKeys (alistSet m k v) = alistKeys m := by
  induction m with
  | nil => rfl
  | cons p t ih =>
      simp only [alistSet, alistKeys, List.map_cons] at *
      by_cases h : p.1 = k <;> simp [h, ih]

/-- Claim C10: `Control::recv_frame` ignores every frame on stream 0 — it
returns `Ready(None)` with the state (in particular `recv_frames`,
`ready_queue`, `last_stream_id`) untouched; it preserves the invariant that
`recv_frames` has no entry for stream 0; on a non-zero stream, unless the
`InnerStream::push` validation rejects the frame, `last_stream_id` becomes
the maximum of its old value and the frame's stream id; and
`last_stream_id` is monotonically non-decreasing in all cases. -/
theorem c10_recvFrame_zero_ignored (c : ControlM) (f : FrameM) :
    (f.streamId = 0 → ControlM.recvFrame c f = (c, .ready none)) ∧
    ((∀ k ∈ alistKeys c.recvFrames, k ≠ 0) →
      ∀ k ∈ alistKeys (ControlM.recvFrame c f).1.recvFrames, k ≠ 0) ∧
    (f.streamId ≠ 0 →
      (∀ e, (ControlM.recvFrame c f).2 ≠ .ready (some (.error e))) →
      (ControlM.recvFrame c f).1.lastStreamId = max c.lastStreamId f.streamId) ∧
    c.lastStreamId ≤ (ControlM.recvFrame c f).1.lastStreamId := by
  by_cases h0 : f.streamId = 0
  · refine ⟨fun _ => ?_, ?_, ?_, ?_⟩
    · simp [ControlM.recvFrame, h0]
    · intro hk
      simpa [ControlM.recvFrame, h0] using hk
    · intro h; exact absurd h0 h
    · simp [ControlM.recvFrame, h0]
  · by_cases hc : alistContains c.recvFrames f.streamId
    · cases hg : alistGet c.recvFrames f.streamId with
      | none =>
          refine ⟨fun h => absurd h h0, ?_, ?_, ?_⟩
          · intro hk
            by_cases heh : f.isEndHeaders <;>
              simpa [ControlM.recvFrame, h0, hc, hg, heh] using hk
          · intro _ _
            by_cases heh : f.isEndHeaders <;>
              simp [ControlM.recvFrame, h0, hc, hg, heh]
          · by_cases heh : f.isEndHeaders <;>
              simp [ControlM.recvFrame, h0, hc, hg, heh, Nat.le_max_left]
      | some fs =>
          cases hp : innerStreamPush fs f with
          | error e =>
              refine ⟨fun h => absurd h h0, ?_, ?_, ?_⟩
              · intro hk
                simpa [ControlM.recvFrame, h0, hc, hg, hp] using hk
              · intro _ hne
                exact absurd (by simp [ControlM.recvFrame, h0, hc, hg, hp]) (hne e)
              · simp [ControlM.recvFrame, h0, hc, hg, hp]
          | ok fs1 =>
              refine ⟨fun h => absurd h h0, ?_, ?_, ?_⟩
              · intro hk
                by_cases heh : f.isEndHeaders <;>
                  simpa [ControlM.recvFrame, h0, hc, hg, hp, heh, alistKeys_set]
                    using hk
              · intro _ _
                by_cases heh : f.isEndHeaders <;>
                  simp [ControlM.recvFrame, h0, hc, hg, hp, heh]
              · by_cases heh : f.isEndHeaders <;>
                  simp [ControlM.recvFrame, h0, hc, hg, hp, heh, Nat.le_max_left]
    · have h1 : (ControlM.recvFrame c f).1.recvFrames
          = alistInsert c.recvFrames f.streamId [f] := by
        by_cases heh : f.isEndHeaders <;> simp [ControlM.recvFrame, h0, hc, heh]
      have h2 : (ControlM.recvFrame c f).1.lastStreamId = max c.lastStreamId f.streamId := by
        by_cases heh : f.isEndHeaders <;> simp [ControlM.recvFrame, h0, hc, heh]
      refine ⟨fun h => absurd h h0, ?_, fun _ _ => h2, ?_⟩
      · intro hk k hmem
        rw [h1, alistKeys_insert] at hmem
        rcases List.mem_append.mp hmem with hmem | hmem
        · exact hk k hmem
        · have hke := List.mem_singleton.mp hmem
          subst hke
          exact h0
      · rw [h2]
        exact Nat.le_max_left _ _

/-- Claim C10 witness: a HEADERS frame with END_HEADERS on stream 3 arriving
at an empty `Control`: stream 0 untouched behaviour, the no-zero-key
invariant, and `last_stream_id = max 0 3 = 3`. -/
theorem c10_recvFrame_witness :
    let c0 : ControlM :=
      { recvFrames := [], readyQueue := [], lastStreamId := 0,
        sendWindows := [], connSendWindow := 65535, goAwayErr := none }
    let f0 : FrameM := .headersF 3 true false
    (f0.streamId = 0 → ControlM.recvFrame c0 f0 = (c0, .ready none)) ∧
    ((∀ k ∈ alistKeys c0.recvFrames, k ≠ 0) →
      ∀ k ∈ alistKeys (ControlM.recvFrame c0 f0).1.recvFrames, k ≠ 0) ∧
    (f0.streamId ≠ 0 →
      (∀ e, (ControlM.recvFrame c0 f0).2 ≠ .ready (some (.error e))) →
      (ControlM.recvFrame c0 f0).1.lastStreamId = max c0.lastStreamId f0.streamId) ∧
    c0.lastStreamId ≤ (ControlM.recvFrame c0 f0).1.lastStreamId :=
  c10_recvFrame_zero_ignored _ _

/-- Claim C4: evaluation of the dispatch at a WINDOW_UPDATE frame — the
`Control` state is returned completely unchanged for every stream id and
every increment; in particular no send window (`sendWindows`,
`connSendWindow`) is credited, contradicting the specified behaviour.  The
WINDOW_UPDATE arms of `poll_request`/`poll_response` are empty in the
source (the crediting statement is commented out). -/
theorem c4_windowUpdate_ignored (c : ControlM) (sid inc : Nat) :
    ControlM.dispatch c (.windowUpdateF sid inc) = c ∧
    (ControlM.dispatch c (.windowUpdateF sid inc)).sendWindows = c.sendWindows ∧
    ∀ w : Int, ControlM.sendWindowOf (ControlM.dispatch c (.windowUpdateF sid inc)) w sid
      = ControlM.sendWindowOf c w sid := by
  exact ⟨rfl, rfl, fun _ => rfl⟩

/-- Claim C7 counterexample: a freshly constructed (default) `Body`'s
semaphore has 10 available permits, not 1 (`Semaphore::new(10)`). -/
theorem c7_initial_permits_counterexample :
    (Body.default Unit).semAvail = 10 ∧ (Body.default Unit).semAvail ≠ 1 := by
  exact ⟨rfl, by decide⟩

/-- Claim C7 (amended): every newly constructed `Body`'s semaphore starts
with exactly 10 permits; `notify_some_read`, called when no permit is held,
tops the semaphore up to one available permit when it has zero and
otherwise leaves the count unchanged — it never pushes the count above
`max old 1`. -/
theorem c7_notifySomeRead_tops_up (S : Type) (b : Body S) :
    (Body.default Unit).semAvail = 10 ∧
    (b.permit = false →
      (Body.notifySomeRead b).semAvail = (if b.semAvail = 0 then 1 else b.semAvail) ∧
      (Body.notifySomeRead b).semAvail ≤ max b.semAvail 1) ∧
    (b.permit = true → Body.notifySomeRead b = b) := by
  refine ⟨rfl, ?_, ?_⟩
  · intro hp
    unfold Body.notifySomeRead
    rw [hp]
    by_cases h0 : b.semAvail = 0
    · simp [h0]
    · simp [h0, Nat.le_max_left]
  · intro hp
    unfold Body.notifySomeRead
    rw [hp]
    simp

/-- Claim C7 witness: the default body has 10 permits; on a permit-free body
with zero available permits, `notify_some_read` makes exactly one permit
available. -/
theorem c7_notifySomeRead_witness :
    let bw : Body Unit := { Body.default Unit with semAvail := 0 }
    (Body.default Unit).semAvail = 10 ∧
    ((Body.notifySomeRead bw).semAvail = (if bw.semAvail = 0 then 1 else bw.semAvail) ∧
      (Body.notifySomeRead bw).semAvail ≤ max bw.semAvail 1) :=
  ⟨(c7_notifySomeRead_tops_up Unit { Body.default Unit with semAvail := 0 }).1,
   (c7_notifySomeRead_tops_up Unit { Body.default Unit with semAvail := 0 }).2.1 rfl⟩

/-- Discriminator: did `set_start_end` return an `Err` value (as opposed to
succeeding or aborting on the assertion)? -/
def SSERes.isErrReturn : SSERes → Bool
  | .failedErr => true
  | _ => false

/-- A file-backed receiver over a 3-byte file, for concrete evaluation. -/
def rC9 : InnerReceiverM := InnerReceiverM.newFile [1, 2, 3] 3

/-- Claim C9 counterexample: with `end < start` (here `start = 1`,
`end = 0`), `set_start_end` does not return an error — it hits the
`assert!(end_pos >= start_pos, ..)` and panics (aborts), so the call neither
succeeds nor returns an `Err`. -/
theorem c9_setStartEnd_counterexample :
    InnerReceiverM.setStartEnd rC9 1 0 = .panicked ∧
    SSERes.isErrReturn (InnerReceiverM.setStartEnd rC9 1 0) = false := by
  exact ⟨rfl, rfl⟩

/-- Claim C9 (amended): `set_start_end(start, end)` panics on the assertion
(rather than returning an error) whenever `end < start`; otherwise it
succeeds, seeks the file to offset `start`, and sets the remaining-read
budget `data_size` to exactly `end - start` — and each file read delivers
at most `data_size` bytes, decreasing `data_size` by the amount
delivered. -/
theorem c9_setStartEnd_seeks_and_caps (r : InnerReceiverM) (s e : Nat) :
    (e < s → InnerReceiverM.setStartEnd r s e = .panicked) ∧
    (s ≤ e → ∀ f, r.file = some f →
      InnerReceiverM.setStartEnd r s e =
        .ok { r with startPos := some s, endPos := some e, dataSize := e - s,
                     file := some { f with pos := s } }) ∧
    (∀ (q q2 : InnerReceiverM) (isEnd : Bool) (out : List Nat),
      q.recvFile = some ((isEnd, out), q2) →
      out.length ≤ q.dataSize ∧ q2.dataSize = q.dataSize - out.length) := by
  refine ⟨?_, ?_, ?_⟩
  · intro hlt
    unfold InnerReceiverM.setStartEnd
    rw [if_pos hlt]
  · intro hle f hf
    unfold InnerReceiverM.setStartEnd
    rw [if_neg (by omega)]
    simp [hf]
  · intro q q2 isEnd out hrecv
    unfold InnerReceiverM.recvFile at hrecv
    cases hf : q.file with
    | none => rw [hf] at hrecv; exact absurd hrecv (by simp)
    | some f =>
        rw [hf] at hrecv
        simp only [Option.some.injEq, Prod.mk.injEq] at hrecv
        obtain ⟨⟨_, hout⟩, hq2⟩ := hrecv
        have hlen : out.length = min q.dataSize (min 4096 (f.content.drop f.pos).length) := by
          rw [← hout, List.length_take]
          omega
        constructor
        · rw [hlen]; omega
        · rw [← hq2, hlen]

/-- Claim C9 witness: on the 3-byte file receiver, `set_start_end(1, 3)`
succeeds, seeks the file to offset 1 and sets `data_size = 2`; the
subsequent read of the whole remaining file delivers at most `data_size`
bytes. -/
theorem c9_setStartEnd_witness :
    (InnerReceiverM.setStartEnd rC9 1 3 =
      .ok { rC9 with startPos := some 1, endPos := some 3, dataSize := 2,
                     file := some { content := [1, 2, 3], pos := 1 } }) ∧
    (∀ (q q2 : InnerReceiverM) (isEnd : Bool) (out : List Nat),
      q.recvFile = some ((isEnd, out), q2) →
      out.length ≤ q.dataSize ∧ q2.dataSize = q.dataSize - out.length) :=
  ⟨(c9_setStartEnd_seeks_and_caps rC9 1 3).2.1 (by decide) { content := [1, 2, 3], pos := 0 } rfl,
   (c9_setStartEnd_seeks_and_caps rC9 1 3).2.2⟩

/-- A read buffer holding the full HTTP/2 preface followed by one extra
read-ahead byte (99). -/
def bufC3 : List Nat := http2Magic ++ [99]

/-- Claim C3 counterexample: with the preface plus one following byte in the
read buffer (and a fatal parse verdict from webparse), `poll_request`
returns `ServerUpgradeHttp2` carrying an EMPTY payload
(`Binary::new()`), not the byte that followed the preface. -/
theorem c3_upgrade_payload_counterexample :
    pollRequestParseStep bufC3 .fatal = (.upgradeHttp2 [], bufC3) ∧
    PollReqRes.upgradeHttp2 [] ≠ .upgradeHttp2 (bufC3.drop magicLen) := by
  exact ⟨by decide, by decide⟩

/-- Claim C3 (amended): when the HTTP/1.1 server's `poll_request` hits a
fatal parse error and the read buffer's first 24 bytes equal the HTTP/2
connection preface, it returns `ServerUpgradeHttp2` carrying an empty
payload, and the read buffer — preface and read-ahead bytes included — is
left untouched (the `advance(MAIGC_LEN)` is commented out), so the
read-ahead bytes are preserved in the connection's read buffer rather than
inside the error value. -/
theorem c3_upgrade_detected_empty_payload (buf : List Nat)
    (hlen : magicLen ≤ buf.length) (hmagic : buf.take magicLen = http2Magic) :
    pollRequestParseStep buf .fatal = (.upgradeHttp2 [], buf) := by
  unfold pollRequestParseStep
  rw [if_pos ⟨hlen, hmagic⟩]

/-- Claim C3 witness: the amended behaviour evaluated on the preface plus
one read-ahead byte. -/
theorem c3_upgrade_witness :
    pollRequestParseStep bufC3 .fatal = (.upgradeHttp2 [], bufC3) :=
  c3_upgrade_detected_empty_payload bufC3 (by decide) (by decide)

/-- A terminal-looking body that still holds two undelivered bytes in its
output buffer `cache_body_data`. -/
def bC6 : Body Unit :=
  { Body.default Unit with isProcessEnd := true, cacheBodyData := [1, 2] }

/-- Claim C6 counterexample: with `is_end` observed and `is_process_end`
already true, a `poll_read` still returns the 2 bytes left in
`cache_body_data` (not zero bytes) and mutates the body (drains the
cache), so the body is not yet terminal in the claimed sense. -/
theorem c6_pollRead_counterexample :
    bC6.isEnd = true ∧ bC6.isProcessEnd = true ∧
    (Body.pollRead unitCodecs bC6 5).2 = .ready (.ok [1, 2]) ∧
    ([1, 2] : List Nat) ≠ [] ∧
    (Body.pollRead unitCodecs bC6 5).1.cacheBodyData ≠ bC6.cacheBodyData := by
  refine ⟨rfl, rfl, rfl, by decide, by decide⟩

/-- Claim C6 (amended): once `is_process_end` is true, every further
`process_data` returns zero bytes and leaves the `Body` unchanged; and once
additionally the output buffer `cache_body_data` has been drained, every
further `poll_read` also returns zero bytes and leaves the `Body`
unchanged — only then is the body terminal. -/
theorem c6_terminal_after_drain (S : Type) (C : Codecs S) (b : Body S)
    (cx : Option Unit) (hpe : b.isProcessEnd = true) :
    Body.processData C b cx = (b, .ready (.ok 0)) ∧
    (b.cacheBodyData = [] → ∀ n, Body.pollRead C b n = (b, .ready (.ok []))) := by
  cases b with
  | mk hr cq cc sa pm ob rb cbd ocm ncm wg wbr wde rg rbr rde ic ie ipe mrb =>
      simp only [] at hpe
      subst hpe
      constructor
      · unfold Body.processData
        simp
      · intro hcache n
        simp only [] at hcache
        subst hcache
        unfold Body.pollRead Body.processData
        simp

/-- Claim C6 witness: the amended terminal behaviour on a concrete drained
body. -/
theorem c6_terminal_witness :
    let bw : Body Unit := { Body.default Unit with isProcessEnd := true }
    Body.processData unitCodecs bw none = (bw, .ready (.ok 0)) ∧
    Body.pollRead unitCodecs bw 5 = (bw, .ready (.ok [])) :=
  ⟨(c6_terminal_after_drain Unit unitCodecs
      { Body.default Unit with isProcessEnd := true } none rfl).1,
   (c6_terminal_after_drain Unit unitCodecs
      { Body.default Unit with isProcessEnd := true } none rfl).2 rfl 5⟩

/-- Auxiliary: `ensureReadBuf` is idempotent. -/
theorem ensureReadBuf_idem (b : Body S) :
    b.ensureReadBuf.ensureReadBuf = b.ensureReadBuf := by
  cases h : b.readBuf <;> simp [Body.ensureReadBuf, h]

/-- Auxiliary: `ensureReadBuf` only touches `readBuf`: the compression methods are
preserved. -/
theorem ensureReadBuf_origin (b : Body S) :
    b.ensureReadBuf.originCompressMethod = b.originCompressMethod := by
  cases h : b.readBuf <;> simp [Body.ensureReadBuf, h]

/-- Auxiliary: `ensureReadBuf` preserves `nowCompressMethod`. -/
theorem ensureReadBuf_now (b : Body S) :
    b.ensureReadBuf.nowCompressMethod = b.nowCompressMethod := by
  cases h : b.readBuf <;> simp [Body.ensureReadBuf, h]

/-- Auxiliary: `ensureReadBuf` preserves `isEnd`. -/
theorem ensureReadBuf_isEnd (b : Body S) :
    b.ensureReadBuf.isEnd = b.isEnd := by
  cases h : b.readBuf <;> simp [Body.ensureReadBuf, h]

/-- Auxiliary: `decode_read_data` on an unrecognized origin method (≠ none, ≠ the
output method, not gzip/deflate/brotli): no byte is stored, the `read_buf`
is merely materialized, and the io-kind "unknown compression format" error
is returned. -/
theorem decodeReadData_unknown (C : Codecs S) (b : Body S) (data : List Nat)
    (h0 : b.originCompressMethod ≠ methodNone)
    (hn : b.originCompressMethod ≠ b.nowCompressMethod)
    (h1 : b.originCompressMethod ≠ methodGzip)
    (h2 : b.originCompressMethod ≠ methodDeflate)
    (h3 : b.originCompressMethod ≠ methodBrotli) :
    Body.decodeReadData C b data = (b.ensureReadBuf, .error .unknownMethod) := by
  unfold Body.decodeReadData
  cases h : b.readBuf <;>
    simp [Body.ensureReadBuf, h, h0, hn, h1, h2, h3]

/-- Claim C8 (amended): an unknown origin compression method encountered
while decoding channel-fed input is NOT surfaced — `cache_buffer` swallows
the decode error (`.ok().unwrap_or(0)`), reporting 0 bytes and dropping the
chunk, and the body is not terminated; only when the error arises while
decoding the initial `origin_buf` inside `process_data` does it surface to
the caller (as an io-kind error), and even then the body is not marked
ended.  (A decompression failure inside a recognized method's decoder takes
these same two paths: `?` inside `decode_read_data`, then swallowed by
`cache_buffer` or propagated by `process_data`.) -/
theorem c8_decode_error_paths (S : Type) (C : Codecs S) (b : Body S) (data : List Nat)
    (h0 : b.originCompressMethod ≠ methodNone)
    (hn : b.originCompressMethod ≠ b.nowCompressMethod)
    (h1 : b.originCompressMethod ≠ methodGzip)
    (h2 : b.originCompressMethod ≠ methodDeflate)
    (h3 : b.originCompressMethod ≠ methodBrotli) :
    Body.cacheBuffer C b data = (b.ensureReadBuf, 0) ∧
    (b.isProcessEnd = false → ∀ d, b.originBuf = some d →
      Body.processData C b none =
        (Body.ensureReadBuf { b with originBuf := none },
         .ready (.error .unknownMethod)) ∧
      (Body.ensureReadBuf { b with originBuf := none }).isEnd = b.isEnd) := by
  constructor
  · have hdec1 := decodeReadData_unknown C b.ensureReadBuf data
      (by rw [ensureReadBuf_origin]; exact h0)
      (by rw [ensureReadBuf_origin, ensureReadBuf_now]; exact hn)
      (by rw [ensureReadBuf_origin]; exact h1)
      (by rw [ensureReadBuf_origin]; exact h2)
      (by rw [ensureReadBuf_origin]; exact h3)
    simp only [Body.cacheBuffer, hdec1, ensureReadBuf_idem]
  · intro hpe d hob
    cases b with
    | mk hr cq cc sa pm ob rb cbd ocm ncm wg wbr wde rg rbr rde ic ie ipe mrb =>
        simp only [] at hpe hob
        subst hpe
        subst hob
        have hdec := decodeReadData_unknown C
          (Body.mk hr cq cc sa pm none rb cbd ocm ncm wg wbr wde rg rbr rde ic ie false mrb)
          d h0 hn h1 h2 h3
        constructor
        · unfold Body.processData
          simp only [Bool.false_eq_true, if_false, hdec]
        · rw [ensureReadBuf_isEnd]

/-- A channel-fed body whose origin compression method is the unrecognized
code 9, with one scripted 1-byte delivery. -/
def bC8 : Body Unit :=
  { Body.default Unit with
    hasReceiver := true
    chanQueue := [(false, [1])]
    isEnd := false
    originCompressMethod := 9 }

/-- Claim C8 counterexample: pulling the chunk through `inner_poll_read`
with an unknown origin method reports success (`Ready(Ok(true))`), leaves
the body unterminated (`is_end = false`), and stores nothing (the chunk's
byte is dropped): no protocol-kind error surfaces to any caller. -/
theorem c8_swallowed_counterexample :
    (Body.innerPollRead unitCodecs bC8).2 = .ready true ∧
    (Body.innerPollRead unitCodecs bC8).1.isEnd = false ∧
    (Body.innerPollRead unitCodecs bC8).1.readBuf = some [] := by
  exact ⟨rfl, rfl, rfl⟩

/-- Claim C8 witness for the amended claim, at the unknown method 9 with the
output method left at none. -/
theorem c8_decode_error_witness :
    Body.cacheBuffer unitCodecs bC8 [1] = (bC8.ensureReadBuf, 0) ∧
    ((Body.default Unit).semAvail = 10 → True) :=
  ⟨(c8_decode_error_paths Unit unitCodecs bC8 [1]
      (by decide) (by decide) (by decide) (by decide) (by decide)).1,
   fun _ => trivial⟩

/-- A body carrying the single byte 7 in `origin_buf`, declared
deflate-compressed at the origin with no output compression
(`set_compress_origin_deflate`). -/
def bC1de : Body (List Nat) :=
  { Body.default (List Nat) with
    originBuf := some [7]
    originCompressMethod := methodDeflate }

/-- The same body with the origin declared gzip instead. -/
def bC1gz : Body (List Nat) :=
  { Body.default (List Nat) with
    originBuf := some [7]
    originCompressMethod := methodGzip }

/-- Claim C1: evaluation at the failing input.  With the identity codecs
(decompressor output = bytes written into it), a deflate-origin body drops
its input on the floor: `decode_read_data`'s DEFLATE arm never writes
`data` into the decompressor (unlike the GZIP arm's `gz.write_all(data)`),
so `read_data` yields 0 bytes where the identically-shaped gzip body yields
the byte back — the output is not the decompress-then-recompress image of
the input. -/
theorem c1_deflate_drops_input :
    (Body.readData idCodecs bC1de).2 = .ok (0, []) ∧
    (Body.readData idCodecs bC1gz).2 = .ok (1, [7]) ∧
    bC1de.originBuf = bC1gz.originBuf := by
  exact ⟨rfl, rfl, rfl⟩

/-- A channel-fed body with `max_read_buf = 1` and a scripted 2-byte
delivery (not end-of-stream). -/
def bC2 : Body Unit :=
  { Body.default Unit with
    hasReceiver := true
    chanQueue := [(false, [5, 5])]
    isEnd := false
    maxReadBuf := 1 }

/-- Model of `bC2` after one `inner_poll_read` (which buffered 2 bytes ≥ the 1-byte
limit and "dropped" the permit), with the producer's next 2-byte chunk
scripted onto the channel. -/
def bC2b : Body Unit :=
  { (Body.innerPollRead unitCodecs bC2).1 with chanQueue := [(false, [6, 6])] }

/-- Claim C2: evaluation at the failing input.  `max_read_buf = 1`: the
first `inner_poll_read` buffers a 2-byte chunk (≥ limit) and
`check_over_limit` drops the permit — but dropping an
`OwnedSemaphorePermit` returns it to the semaphore, which moreover started
at 10, so the available count is back to 10 and no permit is held.  The
next `inner_poll_read`, with the consumer never having read, does NOT
suspend: it reacquires a permit, buffers the next chunk, and returns
`Ready(Ok(true))` with 4 bytes buffered — exceeding `max_read_buf` plus one
chunk (1 + 2 = 3 < 4). -/
theorem c2_no_backpressure_suspension :
    (Body.innerPollRead unitCodecs bC2).2 = .ready true ∧
    (Body.innerPollRead unitCodecs bC2).1.readBuf = some [5, 5] ∧
    (Body.innerPollRead unitCodecs bC2).1.permit = false ∧
    (Body.innerPollRead unitCodecs bC2).1.semAvail = 10 ∧
    (Body.innerPollRead unitCodecs bC2b).2 = .ready true ∧
    (Body.innerPollRead unitCodecs bC2b).1.readBuf = some [5, 5, 6, 6] ∧
    bC2.maxReadBuf + 2 < 4 := by
  exact ⟨rfl, rfl, rfl, rfl, rfl, rfl, by decide⟩

/-- Auxiliary: `check_finish_status` only clears status flags: the two FIFO lists and
the write buffer are untouched. -/
theorem checkFinishStatus_lists (s : IoState S) :
    (s.checkFinishStatus).resList = s.resList ∧
    (s.checkFinishStatus).reqList = s.reqList ∧
    (s.checkFinishStatus).writeBuf = s.writeBuf := by
  unfold IoState.checkFinishStatus IoState.setNowEnd
  split <;> exact ⟨rfl, rfl, rfl⟩

/-- With no pending outbound request, the request block of `poll_write` is a
no-op. -/
theorem fillReqFront_nil (C : Codecs S) (s : IoState S) (h : s.reqList = []) :
    IoState.fillReqFront C s = s := by
  unfold IoState.fillReqFront
  rw [h]

/-- The response block of `poll_write` does not touch the request list. -/
theorem fillResFront_req (C : Codecs S) (s : IoState S) :
    (IoState.fillResFront C s).reqList = s.reqList := by
  unfold IoState.fillResFront
  split <;> rfl

/-- The response pop step does not touch the request list. -/
theorem popResIfFinish_req (s : IoState S) :
    (s.popResIfFinish).reqList = s.reqList := by
  unfold IoState.popResIfFinish
  split
  · rw [(checkFinishStatus_lists _).2.1]
  · rfl

/-- The response pop step does not touch the write buffer. -/
theorem popResIfFinish_wb (s : IoState S) :
    (s.popResIfFinish).writeBuf = s.writeBuf := by
  unfold IoState.popResIfFinish
  split
  · rw [(checkFinishStatus_lists _).2.2]
  · rfl

/-- The response pop step pops the front response exactly when
`res_status.is_send_finish`. -/
theorem popResIfFinish_resList (s : IoState S) :
    (s.popResIfFinish).resList
      = if s.resStatus.isSendFinish then s.resList.drop 1 else s.resList := by
  unfold IoState.popResIfFinish
  split
  · rw [(checkFinishStatus_lists _).1]
  · rfl

/-- The request pop step does not touch the response list or the write
buffer. -/
theorem popReqIfFinish_pres (s : IoState S) :
    (s.popReqIfFinish).resList = s.resList ∧
    (s.popReqIfFinish).writeBuf = s.writeBuf := by
  unfold IoState.popReqIfFinish
  split
  · exact ⟨(checkFinishStatus_lists _).1, (checkFinishStatus_lists _).2.2⟩
  · exact ⟨rfl, rfl⟩

/-- Characterization of the response block of `poll_write` with a response
at the front: the bytes appended to `write_buf` are the front response's
header (unless already sent) followed by bytes from the front response's
body; the tail of `res_list` is untouched; and `is_send_finish` can only
have become true if it already was, or the front body reports end (possibly
after the `poll_encode_write` step). -/
theorem fillResFront_spec (C : Codecs S) (s : IoState S) (res : MsgM S)
    (rest : List (MsgM S)) (h : s.resList = res :: rest) :
    ∃ out res1,
      (IoState.fillResFront C s).writeBuf
        = s.writeBuf ++ (if s.resStatus.isSendHeader then [] else res.headerBytes) ++ out ∧
      (IoState.fillResFront C s).resList = res1 :: rest ∧
      (IoState.fillResFront C s).reqList = s.reqList ∧
      ((IoState.fillResFront C s).resStatus.isSendFinish = true →
        s.resStatus.isSendFinish = true ∨
        (Body.pollEncodeWrite C res.body).1.isEnd = true ∨ res.body.isEnd = true) := by
  by_cases hb : (res.body.isEnd = false ∨ s.resStatus.isSendBody = false)
  · refine ⟨(match (Body.pollEncodeWrite C res.body).2 with
        | PollR.ready (Except.ok r) => r.2
        | _ => []),
      { res with body := (Body.pollEncodeWrite C res.body).1 }, ?_, ?_, ?_, ?_⟩
    · by_cases hh : s.resStatus.isSendHeader <;>
        simp [IoState.fillResFront, h, hh, hb]
    · by_cases hh : s.resStatus.isSendHeader <;>
        simp [IoState.fillResFront, h, hh, hb]
    · by_cases hh : s.resStatus.isSendHeader <;>
        simp [IoState.fillResFront, h, hh, hb]
    · intro hf
      by_cases hend : (Body.pollEncodeWrite C res.body).1.isEnd
      · exact Or.inr (Or.inl hend)
      · left
        by_cases hh : s.resStatus.isSendHeader <;>
          simpa [IoState.fillResFront, h, hh, hb, hend] using hf
  · have hbe : res.body.isEnd = true := by
      cases hx : res.body.isEnd
      · exact absurd (Or.inl hx) hb
      · rfl
    refine ⟨[], res, ?_, ?_, ?_, fun _ => Or.inr (Or.inr hbe)⟩
    · by_cases hh : s.resStatus.isSendHeader <;>
        simp [IoState.fillResFront, h, hh, hb]
    · by_cases hh : s.resStatus.isSendHeader <;>
        simp [IoState.fillResFront, h, hh, hb]
    · by_cases hh : s.resStatus.isSendHeader <;>
        simp [IoState.fillResFront, h, hh, hb]

/-- Claim C5: on an HTTP/1.1 server connection (no pending outbound
requests) with a response at the front of the FIFO `res_list` and the write
phase not yet finished, one `poll_write` buffer-fill step (i) appends to
`write_buf` exactly the FRONT response's header (when not yet sent)
followed by bytes drawn from the FRONT response's body — responses are
encoded in FIFO order; (ii) either pops exactly the front of `res_list` or
leaves the front in place, never touching the rest of the queue; and (iii)
pops only when the front response's body has ended (either before the step
or after its `poll_encode_write`). -/
theorem c5_pollWrite_fifo_order (S : Type) (C : Codecs S) (s : IoState S)
    (res : MsgM S) (rest : List (MsgM S))
    (hres : s.resList = res :: rest) (hreq : s.reqList = [])
    (hfin : s.resStatus.isSendFinish = false) :
    (∃ out, (IoState.pollWriteFill C s).writeBuf
        = s.writeBuf ++ (if s.resStatus.isSendHeader then [] else res.headerBytes) ++ out) ∧
    ((IoState.pollWriteFill C s).resList = rest ∨
      ∃ r1, (IoState.pollWriteFill C s).resList = r1 :: rest) ∧
    ((IoState.pollWriteFill C s).resList = rest →
      (Body.pollEncodeWrite C res.body).1.isEnd = true ∨ res.body.isEnd = true) := by
  obtain ⟨out, res1, hwb, hlist, hreqp, hfin2⟩ := fillResFront_spec C s res rest hres
  have hreq1 : (IoState.fillResFront C s).reqList = [] := by rw [hreqp, hreq]
  have hs2wb : ((IoState.fillResFront C s).popResIfFinish).writeBuf
      = (IoState.fillResFront C s).writeBuf := popResIfFinish_wb _
  have hs2res : ((IoState.fillResFront C s).popResIfFinish).resList
      = if (IoState.fillResFront C s).resStatus.isSendFinish then
          (IoState.fillResFront C s).resList.drop 1
        else (IoState.fillResFront C s).resList := popResIfFinish_resList _
  have hs2req : ((IoState.fillResFront C s).popResIfFinish).reqList = [] := by
    rw [popResIfFinish_req, hreq1]
  have hfill : IoState.fillReqFront C ((IoState.fillResFront C s).popResIfFinish)
      = (IoState.fillResFront C s).popResIfFinish := fillReqFront_nil C _ hs2req
  have hunf : IoState.pollWriteFill C s
      = IoState.popReqIfFinish ((IoState.fillResFront C s).popResIfFinish) := by
    unfold IoState.pollWriteFill
    rw [hfill]
  have hfwb : (IoState.pollWriteFill C s).writeBuf
      = ((IoState.fillResFront C s).popResIfFinish).writeBuf := by
    rw [hunf, (popReqIfFinish_pres _).2]
  have hfres : (IoState.pollWriteFill C s).resList
      = ((IoState.fillResFront C s).popResIfFinish).resList := by
    rw [hunf, (popReqIfFinish_pres _).1]
  refine ⟨⟨out, ?_⟩, ?_, ?_⟩
  · rw [hfwb, hs2wb, hwb]
  · rw [hfres, hs2res]
    by_cases hf : (IoState.fillResFront C s).resStatus.isSendFinish
    · rw [if_pos hf, hlist]
      exact Or.inl rfl
    · rw [if_neg hf, hlist]
      exact Or.inr ⟨res1, rfl⟩
  · intro hrest
    by_cases hf : (IoState.fillResFront C s).resStatus.isSendFinish
    · rcases hfin2 hf with hx | hx | hx
      · rw [hfin] at hx
        exact absurd hx (by simp)
      · exact Or.inl hx
      · exact Or.inr hx
    · rw [hfres, hs2res, if_neg hf, hlist] at hrest
      exact absurd hrest (List.cons_ne_self _ _)

/-- A concrete one-response server state: header bytes `[72]`, body already
ended (default empty body). -/
def sC5 : IoState Unit :=
  { resList := [{ headerBytes := [72], isChunkedHdr := false, body := Body.default Unit }]
    reqList := []
    resStatus := SendStatus.default
    reqStatus := SendStatus.default
    writeBuf := []
    dealReq := 0
    isKeepAlive := false
    isIdle := true }

/-- Claim C5 witness: FIFO emission and pop-only-after-end evaluated on a
concrete one-response state. -/
theorem c5_pollWrite_fifo_witness :
    (∃ out, (IoState.pollWriteFill unitCodecs sC5).writeBuf
        = sC5.writeBuf
          ++ (if sC5.resStatus.isSendHeader then []
              else [72])
          ++ out) ∧
    ((IoState.pollWriteFill unitCodecs sC5).resList = [] ∨
      ∃ r1, (IoState.pollWriteFill unitCodecs sC5).resList = r1 :: []) ∧
    ((IoState.pollWriteFill unitCodecs sC5).resList = [] →
      (Body.pollEncodeWrite unitCodecs (Body.default Unit)).1.isEnd = true ∨
        (Body.default Unit).isEnd = true) :=
  c5_pollWrite_fifo_order Unit unitCodecs sC5
    { headerBytes := [72], isChunkedHdr := false, body := Body.default Unit } []
    rfl rfl rfl
